import Mathlib

/-!
Verification development for the `terrain_data` voxel-storage crate.

The current implementation of the crate is the `make_world!` macro in
`src/lib.rs`, instantiated as in its own documentation and tests with
chunk_width = 16, chunk_height = 16, subchunk_depth = 16, num_subchunks = 16
and the three fields `Block : u8`, `SkyLight : u8`, `Exposed : bool`.
The definitions below are a shallow embedding of that expansion; Rust
`&mut self` methods become state-passing functions returning a result
paired with the new state, and machine integers become `Int`/`Nat` with
explicit `% 2 ^ w` where the source casts can wrap.

The repository also contains older, superseded copies of the same
components (`chunk.rs`, `subchunk.rs`, `world.rs`, `coords.rs`); the crate
root declares no submodules, so those files are not part of the compiled
crate.  Where a legacy copy is relevant to a claim it is embedded
separately under the `Legacy` namespace.

External collaborators (the `chroma` Section primitive and the `bincode`
codec) are not part of the repository; they are modelled from the spec
boundary contract, as marked on each such definition.
-/

namespace TerrainData

/-- Constant `CHUNK_WIDTH` from the `make_world!` instantiation in `src/lib.rs`. -/
def CHUNK_WIDTH : Nat := 16

/-- Constant `CHUNK_HEIGHT` from the `make_world!` instantiation in `src/lib.rs`. -/
def CHUNK_HEIGHT : Nat := 16

/-- Constant `SUBCHUNK_DEPTH` from the `make_world!` instantiation in `src/lib.rs`. -/
def SUBCHUNK_DEPTH : Nat := 16

/-- Constant `NUM_SUBCHUNKS` from the `make_world!` instantiation in `src/lib.rs`. -/
def NUM_SUBCHUNKS : Nat := 16

/-- `CHUNK_DEPTH = SUBCHUNK_DEPTH * NUM_SUBCHUNKS` as in `src/lib.rs`. -/
def CHUNK_DEPTH : Nat := SUBCHUNK_DEPTH * NUM_SUBCHUNKS

/-- Modulus of the 64-bit unsigned machine type `usize`/`u64`. -/
def U64_MOD : Nat := 2 ^ 64

/-- Lower bound of the 32-bit signed machine type `i32`. -/
def I32_MIN : Int := -(2 ^ 31)

/-- Upper bound (exclusive) of the 32-bit signed machine type `i32`. -/
def I32_MAX_EXCL : Int := 2 ^ 31

/-- Wrapping of an integer into the `i32` range, the release-mode semantics
of a Rust `i32` multiplication that may overflow. -/
def wrap32 (n : Int) : Int := (n + 2 ^ 31) % 2 ^ 32 - 2 ^ 31

/-- `BlockPosition` = `glam::IVec3`: signed integer block coordinates. -/
structure BlockPosition where
  x : Int
  y : Int
  z : Int
deriving DecidableEq

/-- `ChunkPosition` = `glam::IVec2`: signed integer chunk coordinates. -/
structure ChunkPosition where
  x : Int
  y : Int
deriving DecidableEq

/-- `chroma::BoundsError` as used by `src/lib.rs` (`BoundsError::OutOfBounds(pos)`). -/
inductive BoundsError where
  | outOfBounds (pos : BlockPosition)
deriving DecidableEq

/-- `ChunkAccessError` from `src/lib.rs`. -/
inductive ChunkAccessError where
  | chunkUnloaded (pos : ChunkPosition)
deriving DecidableEq

/-- `ChunkOverwriteError` from `src/lib.rs`. -/
inductive ChunkOverwriteError where
  | chunkAlreadyLoaded (pos : ChunkPosition)
deriving DecidableEq

/-- `AccessError` from `src/lib.rs`: union of chunk-access and bounds errors. -/
inductive AccessError where
  | chunkAccess (e : ChunkAccessError)
  | bounds (e : BoundsError)
deriving DecidableEq

/-- `ChunkStoreError` from `src/lib.rs`.  The payloads of the external
io/encode/decode error variants are opaque and carried as unit. -/
inductive ChunkStoreError where
  | io
  | access (e : AccessError)
  | chunkOverwrite (e : ChunkOverwriteError)
  | encode
  | decode
deriving DecidableEq

/-- The `SectionField` enumeration generated by `make_world!` for the three
declared fields. -/
inductive SectionField where
  | block
  | skyLight
  | exposed
deriving DecidableEq

/-- The field list in declaration order, standing for the
`sections` array index order of `Subchunk`. -/
def SectionField.fields : List SectionField :=
  [SectionField.block, SectionField.skyLight, SectionField.exposed]

/-- `BITS_PER_ITEM_TABLE` of the instantiation in `src/lib.rs`
(`Block = 1, SkyLight = 1, Exposed = 1`). -/
def SectionField.bits : SectionField → Nat
  | .block => 1
  | .skyLight => 1
  | .exposed => 1

/-- `FieldType::from_u64` for `u8`: `v as u8` truncates to the low byte. -/
def u8FromU64 (v : Nat) : Nat := v % 256

/-- `FieldType::to_u64` for `u8`: widening, the identity on the value. -/
def u8ToU64 (v : Nat) : Nat := v

/-- `FieldType::from_u64` for `bool`: `v != 0`. -/
def boolFromU64 (v : Nat) : Bool := v != 0

/-- `FieldType::to_u64` for `bool`: `self as u64`, i.e. `true` to 1, `false` to 0. -/
def boolToU64 (b : Bool) : Nat := if b then 1 else 0

/-- Modelled from the spec: the external `chroma::Section` packed array,
`Section<CHUNK_WIDTH, CHUNK_HEIGHT, SUBCHUNK_DEPTH>` in `src/lib.rs`.
It is consumed only through the boundary contract of spec section 6:
constructed from a bit width, `item`/`set_item` succeed exactly on
positions inside the fixed volume, and `is_empty` is true iff every
stored value is zero.  Stored values are modelled as a total function
from coordinates to the stored `u64`. -/
structure Section where
  bits : Nat
  data : Int → Int → Int → Nat

/-- Modelled from the spec: `Section::new(bits)`, all values zero. -/
def Section.new (bits : Nat) : Section :=
  { bits := bits, data := fun _ _ _ => 0 }

/-- Modelled from the spec: membership of a position in the fixed
`CHUNK_WIDTH × CHUNK_HEIGHT × SUBCHUNK_DEPTH` volume of a Section. -/
def Section.inBounds (pos : BlockPosition) : Bool :=
  decide (0 ≤ pos.x) && decide (pos.x < (CHUNK_WIDTH : Int)) &&
  decide (0 ≤ pos.y) && decide (pos.y < (CHUNK_HEIGHT : Int)) &&
  decide (0 ≤ pos.z) && decide (pos.z < (SUBCHUNK_DEPTH : Int))

/-- Modelled from the spec: `Section::item(pos)`; a bounds error outside the
volume, otherwise the stored value. -/
def Section.item (s : Section) (pos : BlockPosition) : Except BoundsError Nat :=
  if Section.inBounds pos then Except.ok (s.data pos.x pos.y pos.z)
  else Except.error (BoundsError.outOfBounds pos)

/-- Modelled from the spec: `Section::set_item(pos, value)`; a bounds error
outside the volume, otherwise the value is stored. -/
def Section.setItem (s : Section) (pos : BlockPosition) (v : Nat) :
    Except BoundsError Section :=
  if Section.inBounds pos then
    Except.ok { s with
      data := fun a b c =>
        if a = pos.x ∧ b = pos.y ∧ c = pos.z then v else s.data a b c }
  else Except.error (BoundsError.outOfBounds pos)

/-- Modelled from the spec: `Section::is_empty()`, true iff every stored
value over the fixed volume is zero. -/
def Section.isEmpty (s : Section) : Bool :=
  (List.range SUBCHUNK_DEPTH).all fun c =>
    (List.range CHUNK_HEIGHT).all fun b =>
      (List.range CHUNK_WIDTH).all fun a =>
        s.data (a : Int) (b : Int) (c : Int) == 0

/-- `Subchunk` from `src/lib.rs`: one optional Section per field.  The
`sections` array indexed by `SectionField as usize` becomes a function
from `SectionField`. -/
structure Subchunk where
  sections : SectionField → Option Section

/-- `Subchunk::default()`: every slot absent. -/
def Subchunk.default : Subchunk :=
  { sections := fun _ => none }

/-- `Subchunk::is_empty()` from `src/lib.rs`:
`self.sections.iter().all(Option::is_none)`. -/
def Subchunk.isEmpty (s : Subchunk) : Bool :=
  SectionField.fields.all fun f => (s.sections f).isNone

/-- `Subchunk::item` from `src/lib.rs`:
`self.sections[i].as_ref().map_or(Ok(0), |s| s.item(pos))`. -/
def Subchunk.item (s : Subchunk) (f : SectionField) (pos : BlockPosition) :
    Except BoundsError Nat :=
  match s.sections f with
  | none => Except.ok 0
  | some sec => sec.item pos

/-- `Subchunk::set_item` from `src/lib.rs`.  A default write into an absent
slot is a no-op; otherwise the Section is materialized on demand, the write
delegated, and an emptied Section collapsed back to absent.  An error from
`Section::set_item` propagates after the slot was materialized, exactly as
the early `?` return in the source. -/
def Subchunk.setItem (s : Subchunk) (f : SectionField) (pos : BlockPosition)
    (v : Nat) : Except BoundsError Unit × Subchunk :=
  if v == 0 && (s.sections f).isNone then (Except.ok (), s)
  else
    match Section.setItem ((s.sections f).getD (Section.new (SectionField.bits f))) pos v with
    | Except.error e =>
        (Except.error e,
          { sections := Function.update s.sections f
              (some ((s.sections f).getD (Section.new (SectionField.bits f)))) })
    | Except.ok sec2 =>
        if Section.isEmpty sec2 then
          (Except.ok (), { sections := Function.update s.sections f none })
        else
          (Except.ok (), { sections := Function.update s.sections f (some sec2) })

/-- `Chunk` from `src/lib.rs`: a fixed array of `NUM_SUBCHUNKS` optional
Subchunks, embedded as a function from `Fin NUM_SUBCHUNKS`. -/
structure Chunk where
  subchunks : Fin NUM_SUBCHUNKS → Option Subchunk

/-- `Chunk::default()`: every subchunk slot absent. -/
def Chunk.default : Chunk :=
  { subchunks := fun _ => none }

/-- `Chunk::subchunk_index(pos_z)` from `src/lib.rs`:
`(pos_z as usize).div_euclid(SUBCHUNK_DEPTH)`.  The cast `i32 as usize`
wraps modulo `2 ^ 64`. -/
def Chunk.subchunkIndex (z : Int) : Nat :=
  (z % (U64_MOD : Int)).toNat / SUBCHUNK_DEPTH

/-- `Chunk::local_to_sub(pos)` from `src/lib.rs`: Euclidean remainder of the
vertical component by `SUBCHUNK_DEPTH`. -/
def Chunk.localToSub (pos : BlockPosition) : BlockPosition :=
  { x := pos.x, y := pos.y, z := pos.z % (SUBCHUNK_DEPTH : Int) }

/-- `self.subchunks.get(index)` of the Rust array: `none` when the index is
out of the array, otherwise the slot content. -/
def Chunk.subchunkGet (c : Chunk) (i : Nat) : Option (Option Subchunk) :=
  if h : i < NUM_SUBCHUNKS then some (c.subchunks ⟨i, h⟩) else none

/-- The macro-generated `Chunk` field getter from `src/lib.rs`: resolve the
subchunk index (bounds error when it falls outside the array), treat an
absent subchunk as the default value 0, else delegate. -/
def Chunk.item (c : Chunk) (f : SectionField) (pos : BlockPosition) :
    Except BoundsError Nat :=
  match Chunk.subchunkGet c (Chunk.subchunkIndex pos.z) with
  | none => Except.error (BoundsError.outOfBounds pos)
  | some none => Except.ok 0
  | some (some s) => Subchunk.item s f (Chunk.localToSub pos)

/-- The macro-generated `Chunk` field setter from `src/lib.rs`.  A default
write into an absent slot is a no-op; otherwise the Subchunk is materialized
on demand, the write delegated (an error keeps the materialized slot, as the
early `?` return in the source), and an emptied Subchunk collapsed back to
absent. -/
def Chunk.setItem (c : Chunk) (f : SectionField) (pos : BlockPosition)
    (v : Nat) : Except BoundsError Unit × Chunk :=
  if h : Chunk.subchunkIndex pos.z < NUM_SUBCHUNKS then
    if v == 0 && (c.subchunks ⟨Chunk.subchunkIndex pos.z, h⟩).isNone then (Except.ok (), c)
    else
      match Subchunk.setItem ((c.subchunks ⟨Chunk.subchunkIndex pos.z, h⟩).getD Subchunk.default)
          f (Chunk.localToSub pos) v with
      | (Except.error e, sub2) =>
          (Except.error e,
            { subchunks :=
                Function.update c.subchunks ⟨Chunk.subchunkIndex pos.z, h⟩ (some sub2) })
      | (Except.ok _, sub2) =>
          if Subchunk.isEmpty sub2 then
            (Except.ok (),
              { subchunks :=
                  Function.update c.subchunks ⟨Chunk.subchunkIndex pos.z, h⟩ none })
          else
            (Except.ok (),
              { subchunks :=
                  Function.update c.subchunks ⟨Chunk.subchunkIndex pos.z, h⟩ (some sub2) })
  else (Except.error (BoundsError.outOfBounds pos), c)

/-- Absence of the whole subchunk/section chain for a field at a local
position of a chunk: the subchunk slot is in range and either absent, or
present with the section slot of the field absent. -/
def Chunk.sectionAbsent (c : Chunk) (f : SectionField) (pos : BlockPosition) : Bool :=
  match Chunk.subchunkGet c (Chunk.subchunkIndex pos.z) with
  | none => false
  | some none => true
  | some (some s) => (s.sections f).isNone

/-- `World` from `src/lib.rs`: the in-memory map from chunk coordinate to
chunk, embedded as a function to `Option Chunk`. -/
structure World where
  chunks : ChunkPosition → Option Chunk

/-- `World::chunk_to_block_pos` from `src/lib.rs`:
`(pos.x * CHUNK_WIDTH, pos.y * CHUNK_HEIGHT, 0)`, with the `i32`
multiplications wrapping. -/
def World.chunkToBlockPos (pos : ChunkPosition) : BlockPosition :=
  { x := wrap32 (pos.x * (CHUNK_WIDTH : Int))
    y := wrap32 (pos.y * (CHUNK_HEIGHT : Int))
    z := 0 }

/-- `World::block_to_chunk_pos` from `src/lib.rs`: Euclidean division of the
horizontal components by the chunk footprint. -/
def World.blockToChunkPos (pos : BlockPosition) : ChunkPosition :=
  { x := pos.x / (CHUNK_WIDTH : Int), y := pos.y / (CHUNK_HEIGHT : Int) }

/-- `World::global_to_local_pos` from `src/lib.rs`: Euclidean remainder of
the horizontal components, vertical component passed through. -/
def World.globalToLocalPos (pos : BlockPosition) : BlockPosition :=
  { x := pos.x % (CHUNK_WIDTH : Int), y := pos.y % (CHUNK_HEIGHT : Int), z := pos.z }

/-- The macro-generated `World` field getter from `src/lib.rs`: resolve the
chunk coordinate and local position, error when the chunk is unloaded, else
delegate to the chunk. -/
def World.item (w : World) (f : SectionField) (pos : BlockPosition) :
    Except AccessError Nat :=
  match w.chunks (World.blockToChunkPos pos) with
  | none =>
      Except.error (AccessError.chunkAccess
        (ChunkAccessError.chunkUnloaded (World.blockToChunkPos pos)))
  | some c =>
      match Chunk.item c f (World.globalToLocalPos pos) with
      | Except.error e => Except.error (AccessError.bounds e)
      | Except.ok v => Except.ok v

/-- The macro-generated `World` field setter from `src/lib.rs`.  The chunk is
mutated in place, so the written-back chunk state is kept even when the
delegated set returns a bounds error. -/
def World.setItem (w : World) (f : SectionField) (pos : BlockPosition)
    (v : Nat) : Except AccessError Unit × World :=
  match w.chunks (World.blockToChunkPos pos) with
  | none =>
      (Except.error (AccessError.chunkAccess
        (ChunkAccessError.chunkUnloaded (World.blockToChunkPos pos))), w)
  | some c =>
      match Chunk.setItem c f (World.globalToLocalPos pos) v with
      | (Except.error e, c2) =>
          (Except.error (AccessError.bounds e),
            { chunks := Function.update w.chunks (World.blockToChunkPos pos) (some c2) })
      | (Except.ok _, c2) =>
          (Except.ok (),
            { chunks := Function.update w.chunks (World.blockToChunkPos pos) (some c2) })

/-- The typed getter `World::is_exposed` for the boolean `Exposed` field:
the generic access composed with `FieldType::from_u64` for `bool`. -/
def World.isExposed (w : World) (pos : BlockPosition) : Except AccessError Bool :=
  (World.item w SectionField.exposed pos).map boolFromU64

/-- The typed setter `World::set_is_exposed` for the boolean `Exposed`
field: `FieldType::to_u64` composed with the generic set. -/
def World.setIsExposed (w : World) (pos : BlockPosition) (b : Bool) :
    Except AccessError Unit × World :=
  World.setItem w SectionField.exposed pos (boolToU64 b)

/-- The typed getter `World::block` for the `Block : u8` field. -/
def World.blockAt (w : World) (pos : BlockPosition) : Except AccessError Nat :=
  (World.item w SectionField.block pos).map u8FromU64

/-- `World::add_empty_chunk` from `src/lib.rs`: insert a default chunk,
failing without mutation when one is already present. -/
def World.addEmptyChunk (w : World) (pos : ChunkPosition) :
    Except ChunkOverwriteError World :=
  if (w.chunks pos).isSome then
    Except.error (ChunkOverwriteError.chunkAlreadyLoaded pos)
  else Except.ok { chunks := Function.update w.chunks pos (some Chunk.default) }

/-- Modelled from the spec: the content of a persisted chunk file.  `empty`
stands for a created/truncated file with nothing written yet (a malformed
stream for the decoder); `chunkData c` stands for the byte stream produced
by the lossless chunk encoding of spec section 6. -/
inductive FileContent where
  | empty
  | chunkData (c : Chunk)

/-- The chunks directory on disk, keyed by chunk coordinate (the file name
`x_y.bin` is injective in the coordinate pair). -/
def FileStore : Type := ChunkPosition → Option FileContent

/-- Modelled from the spec: outcomes of the external filesystem and codec
calls performed by one persistence operation.  Each flag tells whether the
corresponding external call succeeds. -/
structure IOEnv where
  createDirOk : Bool
  createFileOk : Bool
  encodeOk : Bool
  writeOk : Bool

/-- `World::unload_chunk` from `src/lib.rs`, state-passing.  The order of
effects is the order of the source: remove the chunk from the map, create
the chunks directory, create (truncate) the file, encode, write.  An early
error returns the state reached so far. -/
def World.unloadChunk (env : IOEnv) (w : World) (fs : FileStore)
    (pos : ChunkPosition) : Except ChunkStoreError Unit × World × FileStore :=
  match w.chunks pos with
  | none =>
      (Except.error (ChunkStoreError.access (AccessError.chunkAccess
        (ChunkAccessError.chunkUnloaded pos))), w, fs)
  | some c =>
      let w1 : World := { chunks := Function.update w.chunks pos none }
      if !env.createDirOk then (Except.error ChunkStoreError.io, w1, fs)
      else if !env.createFileOk then (Except.error ChunkStoreError.io, w1, fs)
      else
        let fs1 : FileStore := Function.update fs pos (some FileContent.empty)
        if !env.encodeOk then (Except.error ChunkStoreError.encode, w1, fs1)
        else if !env.writeOk then (Except.error ChunkStoreError.io, w1, fs1)
        else (Except.ok (), w1, Function.update fs pos (some (FileContent.chunkData c)))

/-- `World::load_chunk` from `src/lib.rs`, state-passing: fail on an already
loaded coordinate, read the file (an io error when absent), decode it (a
decode error on a malformed stream, per the spec codec contract), insert. -/
def World.loadChunk (w : World) (fs : FileStore) (pos : ChunkPosition) :
    Except ChunkStoreError Unit × World :=
  if (w.chunks pos).isSome then
    (Except.error (ChunkStoreError.chunkOverwrite
      (ChunkOverwriteError.chunkAlreadyLoaded pos)), w)
  else
    match fs pos with
    | none => (Except.error ChunkStoreError.io, w)
    | some FileContent.empty => (Except.error ChunkStoreError.decode, w)
    | some (FileContent.chunkData c) =>
        (Except.ok (), { chunks := Function.update w.chunks pos (some c) })

/-- `CHUNK_ADJ_OFFSETS` from `src/lib.rs`: the 4 horizontal neighbor
offsets. -/
def CHUNK_ADJ_OFFSETS : List ChunkPosition :=
  [{ x := -1, y := 0 }, { x := 1, y := 0 }, { x := 0, y := -1 }, { x := 0, y := 1 }]

/-- Componentwise addition of chunk coordinates (`IVec2` addition). -/
def ChunkPosition.add (p q : ChunkPosition) : ChunkPosition :=
  { x := p.x + q.x, y := p.y + q.y }

/-- `World::chunk_offsets(pos)` from `src/lib.rs`: the 4 horizontal
neighbors of a chunk coordinate. -/
def chunkOffsets (pos : ChunkPosition) : List ChunkPosition :=
  CHUNK_ADJ_OFFSETS.map fun o => ChunkPosition.add pos o

/-- Modelled from the spec: the dirty-set component of the World.  The crate
documents the World as storing chunks and marking dirty chunks, but the
dirty set and `consume_dirty` implementation are not under `src/`; they are
modelled here from spec sections 4.4 and 8: a set of chunk coordinates,
kept as a duplicate-free list. -/
structure DirtyWorld where
  chunks : ChunkPosition → Option Chunk
  dirty : List ChunkPosition

/-- Insertion into the dirty set: a no-op when the coordinate is already
marked. -/
def dirtyInsert (l : List ChunkPosition) (p : ChunkPosition) : List ChunkPosition :=
  if p ∈ l then l else p :: l

/-- Modelled from the spec: marking after a successful set, the owning
chunk coordinate and its 4 horizontal neighbors. -/
def markDirty (l : List ChunkPosition) (pos : ChunkPosition) : List ChunkPosition :=
  (chunkOffsets pos).foldl dirtyInsert (dirtyInsert l pos)

/-- Modelled from the spec: the World field setter with dirty marking.  The
storage path is the embedding of the `src/lib.rs` setter; a successful set
additionally marks the owning chunk and its 4 horizontal neighbors dirty. -/
def DirtyWorld.setItem (w : DirtyWorld) (f : SectionField) (pos : BlockPosition)
    (v : Nat) : Except AccessError Unit × DirtyWorld :=
  match w.chunks (World.blockToChunkPos pos) with
  | none =>
      (Except.error (AccessError.chunkAccess
        (ChunkAccessError.chunkUnloaded (World.blockToChunkPos pos))), w)
  | some c =>
      match Chunk.setItem c f (World.globalToLocalPos pos) v with
      | (Except.error e, c2) =>
          (Except.error (AccessError.bounds e),
            { w with chunks :=
                Function.update w.chunks (World.blockToChunkPos pos) (some c2) })
      | (Except.ok _, c2) =>
          (Except.ok (),
            { chunks := Function.update w.chunks (World.blockToChunkPos pos) (some c2)
              dirty := markDirty w.dirty (World.blockToChunkPos pos) })

/-- Modelled from the spec: `consume_dirty()` empties the dirty set and
returns its former contents filtered to the still-loaded coordinates. -/
def DirtyWorld.consumeDirty (w : DirtyWorld) : List ChunkPosition × DirtyWorld :=
  (w.dirty.filter fun c => (w.chunks c).isSome, { w with dirty := [] })

/-- `Block` from `src/block.rs`. -/
inductive Block where
  | air
  | grass
  | dirt
  | stone
  | bedrock
  | missing
  | length
deriving DecidableEq, Fintype

/-- The `repr(u8)` discriminant of each `Block` variant. -/
def Block.discriminant : Block → Nat
  | .air => 0
  | .grass => 1
  | .dirt => 2
  | .stone => 3
  | .bedrock => 4
  | .missing => 5
  | .length => 6

/-- The defined (non-reserved) block types: every variant except the
reserved `Missing` fallback and the `Length` marker. -/
def Block.isDefined : Block → Bool
  | .air => true
  | .grass => true
  | .dirt => true
  | .stone => true
  | .bedrock => true
  | .missing => false
  | .length => false

/-- The `transmute` table of `From<u64> for Block`: the variant whose
discriminant is the given byte, for bytes below `Length`. -/
def Block.ofU8 (n : Nat) : Block :=
  if n = 0 then .air
  else if n = 1 then .grass
  else if n = 2 then .dirt
  else if n = 3 then .stone
  else if n = 4 then .bedrock
  else if n = 5 then .missing
  else .length

/-- `From<u64> for Block` from `src/block.rs`: truncate to `u8`
(`value as u8`), reinterpret when below the `Length` discriminant, else the
reserved `Missing` variant. -/
def Block.fromU64 (v : Nat) : Block :=
  let v8 := v % 256
  if v8 < Block.discriminant .length then Block.ofU8 v8 else Block.missing

/-- `BlockDefinition` from `src/block.rs`: the packed capability bitset. -/
structure BlockDefinition where
  data : Nat
deriving DecidableEq

/-- `BlockDefinition::new` from `src/block.rs`: pack the block discriminant
and the five capability flags into the data word. -/
def BlockDefinition.new (name : Block) (isHoverable isVisible isBreakable
    isCollidable isReplaceable : Bool) : BlockDefinition :=
  { data :=
      (Block.discriminant name % 256) +
      (if isHoverable then 2 ^ 8 else 0) +
      (if isVisible then 2 ^ 9 else 0) +
      (if isBreakable then 2 ^ 10 else 0) +
      (if isCollidable then 2 ^ 11 else 0) +
      (if isReplaceable then 2 ^ 12 else 0) }

/-- The predefined `AIR` definition. -/
def BlockDefinition.AIR : BlockDefinition :=
  BlockDefinition.new Block.air false false false false true

/-- The predefined `GRASS` definition. -/
def BlockDefinition.GRASS : BlockDefinition :=
  BlockDefinition.new Block.grass true true true true false

/-- The predefined `DIRT` definition. -/
def BlockDefinition.DIRT : BlockDefinition :=
  BlockDefinition.new Block.dirt true true true true false

/-- The predefined `STONE` definition. -/
def BlockDefinition.STONE : BlockDefinition :=
  BlockDefinition.new Block.stone true true true true false

/-- The predefined `BEDROCK` definition. -/
def BlockDefinition.BEDROCK : BlockDefinition :=
  BlockDefinition.new Block.bedrock true true false true false

/-- The predefined `MISSING` definition. -/
def BlockDefinition.MISSING : BlockDefinition :=
  BlockDefinition.new Block.missing false true false true false

/-- `Block::definition` from `src/block.rs`.  The `unreachable!()` branch on
the `Length` marker is modelled as `none`: reaching it is the panic. -/
def Block.definitionOf : Block → Option BlockDefinition
  | .air => some BlockDefinition.AIR
  | .grass => some BlockDefinition.GRASS
  | .dirt => some BlockDefinition.DIRT
  | .stone => some BlockDefinition.STONE
  | .bedrock => some BlockDefinition.BEDROCK
  | .missing => some BlockDefinition.MISSING
  | .length => none

/-- The chunk coordinate (0, 0), used by the concrete evaluations below. -/
def chunkPos00 : ChunkPosition := { x := 0, y := 0 }

/-- A concrete world holding one default chunk at (0, 0). -/
def w0 : World :=
  { chunks := fun a => if a = chunkPos00 then some Chunk.default else none }

/-- The concrete world `w0` together with an empty dirty set. -/
def dw0 : DirtyWorld := { chunks := w0.chunks, dirty := [] }

/-- The state of `dw0` after the concrete set evaluated in the C1 witness. -/
def dw1 : DirtyWorld :=
  (DirtyWorld.setItem dw0 SectionField.block { x := 0, y := 0, z := 0 } 1).2

/-- An empty on-disk chunk store. -/
def fs0 : FileStore := fun _ => none

/-- An environment in which every external call succeeds. -/
def envAllOk : IOEnv :=
  { createDirOk := true, createFileOk := true, encodeOk := true, writeOk := true }

/-- An environment in which only the encode step fails. -/
def envEncodeFail : IOEnv :=
  { createDirOk := true, createFileOk := true, encodeOk := false, writeOk := true }

/-- A subchunk whose sky-light slot holds an allocated section while the
block-type slot (and the exposure slot) are absent. -/
def exampleSubchunk : Subchunk :=
  { sections := fun f =>
      if f = SectionField.skyLight then some (Section.new 1) else none }

/-! ## Theorems -/

/-- C6: for every Subchunk state, `is_empty()` returns true if and only if
every field slot is absent; in particular a Subchunk holding an allocated
sky-light section while the block-type section is absent is not empty. -/
theorem c6_subchunk_isEmpty_iff :
    (∀ s : Subchunk, Subchunk.isEmpty s = true ↔ ∀ f, s.sections f = none) ∧
    Subchunk.isEmpty exampleSubchunk = false := by
  constructor
  · intro s
    simp only [Subchunk.isEmpty, SectionField.fields, List.all_cons, List.all_nil,
      Bool.and_eq_true, Option.isNone_iff_eq_none, Bool.and_true]
    constructor
    · rintro ⟨h1, h2, h3⟩ f
      cases f
      · exact h1
      · exact h2
      · exact h3
    · intro h
      exact ⟨h _, h _, h _⟩
  · simp [Subchunk.isEmpty, SectionField.fields, exampleSubchunk]

/-- C8 counterexample: the input 256 equals no defined block discriminant,
yet `Block::from` yields `Air`, not the reserved `Missing` variant, because
the conversion first truncates to the low byte. -/
theorem c8_counterexample :
    (∀ b : Block, Block.isDefined b = true → (256 : Nat) ≠ Block.discriminant b) ∧
    Block.fromU64 256 = Block.air ∧ Block.fromU64 256 ≠ Block.missing := by
  decide

/-- C8 amended: `Block::from` truncates its input to the low byte; for every
u64 input whose low byte (`value mod 256`) does not equal the discriminant
of a defined block type, the conversion yields the reserved `Missing`
variant. -/
theorem c8_amended (v : Nat) (hv : v < U64_MOD)
    (h : ∀ b : Block, Block.isDefined b = true → v % 256 ≠ Block.discriminant b) :
    Block.fromU64 v = Block.missing := by
  have ha := h Block.air (by decide)
  have hg := h Block.grass (by decide)
  have hd := h Block.dirt (by decide)
  have hs := h Block.stone (by decide)
  have hb := h Block.bedrock (by decide)
  simp only [Block.discriminant] at ha hg hd hs hb
  unfold Block.fromU64
  by_cases hlt : v % 256 < Block.discriminant Block.length
  · simp only [Block.discriminant] at hlt
    have h5 : v % 256 = 5 := by omega
    simp [Block.discriminant, h5, Block.ofU8]
  · simp [hlt]

/-- C8 amended witness at the concrete input 7. -/
theorem c8_amended_witness :
    ((7 : Nat) < U64_MOD ∧
      (∀ b : Block, Block.isDefined b = true → (7 : Nat) % 256 ≠ Block.discriminant b)) ∧
    Block.fromU64 7 = Block.missing :=
  ⟨⟨by decide, by decide⟩, c8_amended 7 (by decide) (by decide)⟩

/-- C10: for every u64 input, the integer-to-block conversion returns one of
the proper variants and never the `Length` marker, so `definition()` on the
result never reaches its unreachable branch. -/
theorem c10_fromU64_never_length (v : Nat) (hv : v < U64_MOD) :
    Block.fromU64 v ≠ Block.length ∧
    (Block.definitionOf (Block.fromU64 v)).isSome = true := by
  unfold Block.fromU64
  by_cases hlt : v % 256 < Block.discriminant Block.length
  · simp only [hlt, if_true]
    simp only [Block.discriminant] at hlt
    have h6 : v % 256 = 0 ∨ v % 256 = 1 ∨ v % 256 = 2 ∨ v % 256 = 3 ∨
        v % 256 = 4 ∨ v % 256 = 5 := by omega
    rcases h6 with h | h | h | h | h | h <;>
      simp [h, Block.ofU8, Block.definitionOf]
  · simp [hlt, Block.definitionOf]

/-- C10 witness at the concrete input 300. -/
theorem c10_witness :
    (300 : Nat) < U64_MOD ∧
    (Block.fromU64 300 ≠ Block.length ∧
      (Block.definitionOf (Block.fromU64 300)).isSome = true) :=
  ⟨by decide, c10_fromU64_never_length 300 (by decide)⟩

/-- C5 counterexample: with the chunk at (0, 0) loaded and an environment in
which only the encode step fails, `unload_chunk` reports the encode error
while the chunk is already gone from the in-memory map, refuting the claim
that a failed encode leaves the chunk present. -/
theorem c5_counterexample :
    (World.unloadChunk envEncodeFail w0 fs0 chunkPos00).1 =
      Except.error ChunkStoreError.encode ∧
    (World.unloadChunk envEncodeFail w0 fs0 chunkPos00).2.1.chunks chunkPos00 = none := by
  constructor
  · rfl
  · simp [World.unloadChunk, envEncodeFail, w0, fs0, chunkPos00]

/-- C5 amended: `unload_chunk` removes the chunk from the in-memory map
before constructing the encoded byte stream, so whenever encoding fails
(directory and file creation having succeeded) the encode error is returned
and the chunk is no longer present in the in-memory map. -/
theorem c5_amended (env : IOEnv) (w : World) (fs : FileStore)
    (pos : ChunkPosition) (c : Chunk)
    (hc : w.chunks pos = some c)
    (hdir : env.createDirOk = true) (hfile : env.createFileOk = true)
    (henc : env.encodeOk = false) :
    (World.unloadChunk env w fs pos).1 = Except.error ChunkStoreError.encode ∧
    (World.unloadChunk env w fs pos).2.1.chunks pos = none := by
  unfold World.unloadChunk
  rw [hc]
  simp [hdir, hfile, henc]

/-- C5 amended witness at the concrete failing environment. -/
theorem c5_witness :
    (w0.chunks chunkPos00 = some Chunk.default ∧
      envEncodeFail.createDirOk = true ∧ envEncodeFail.createFileOk = true ∧
      envEncodeFail.encodeOk = false) ∧
    ((World.unloadChunk envEncodeFail w0 fs0 chunkPos00).1 =
        Except.error ChunkStoreError.encode ∧
      (World.unloadChunk envEncodeFail w0 fs0 chunkPos00).2.1.chunks chunkPos00 = none) :=
  ⟨⟨rfl, rfl, rfl, rfl⟩, c5_amended envEncodeFail w0 fs0 chunkPos00 Chunk.default rfl rfl rfl rfl⟩

/-- An integer already inside the `i32` range is unchanged by wrapping. -/
theorem wrap32_eq_self {n : Int} (h1 : I32_MIN ≤ n) (h2 : n < I32_MAX_EXCL) :
    wrap32 n = n := by
  unfold wrap32
  unfold I32_MIN at h1
  unfold I32_MAX_EXCL at h2
  have h3 : (0 : Int) ≤ n + 2 ^ 31 := by omega
  have h4 : n + 2 ^ 31 < 2 ^ 32 := by omega
  rw [Int.emod_eq_of_lt h3 h4]
  ring

/-- The rounded-down multiple `a / 16 * 16` of an `i32` value stays in the
`i32` range. -/
theorem ediv_mul_sixteen_range {a : Int} (h1 : I32_MIN ≤ a) (h2 : a < I32_MAX_EXCL) :
    I32_MIN ≤ a / 16 * 16 ∧ a / 16 * 16 < I32_MAX_EXCL := by
  unfold I32_MIN at *
  unfold I32_MAX_EXCL at *
  have hmod0 : 0 ≤ a % 16 := Int.emod_nonneg a (by norm_num)
  have heq : 16 * (a / 16) + a % 16 = a := Int.ediv_add_emod a 16
  have hlow0 : -(2 ^ 31 : Int) / 16 ≤ a / 16 := Int.ediv_le_ediv (by norm_num) h1
  have hlow1 : -(2 ^ 31 : Int) / 16 = -(2 ^ 27) := by decide
  have hlow : -(2 ^ 27 : Int) ≤ a / 16 := hlow1 ▸ hlow0
  constructor
  · have h0 : (16 : Int) * -(2 ^ 27) ≤ 16 * (a / 16) :=
      mul_le_mul_of_nonneg_left hlow (by norm_num)
    have h16 : (16 : Int) * -(2 ^ 27) = -(2 ^ 31) := by norm_num
    nlinarith [h0]
  · nlinarith [hmod0, heq]

/-- C9: for every global block position in the `i32` range,
`chunk_to_block_pos (block_to_chunk_pos p) + global_to_local_pos p`
reconstructs both horizontal components of `p`, and the horizontal
components of `global_to_local_pos p` lie in `[0, width)` and
`[0, height)`, including for negative inputs. -/
theorem c9_coordinate_inverse (p : BlockPosition)
    (hx1 : I32_MIN ≤ p.x) (hx2 : p.x < I32_MAX_EXCL)
    (hy1 : I32_MIN ≤ p.y) (hy2 : p.y < I32_MAX_EXCL) :
    ((World.chunkToBlockPos (World.blockToChunkPos p)).x +
        (World.globalToLocalPos p).x = p.x ∧
      (World.chunkToBlockPos (World.blockToChunkPos p)).y +
        (World.globalToLocalPos p).y = p.y) ∧
    (0 ≤ (World.globalToLocalPos p).x ∧
      (World.globalToLocalPos p).x < (CHUNK_WIDTH : Int) ∧
      0 ≤ (World.globalToLocalPos p).y ∧
      (World.globalToLocalPos p).y < (CHUNK_HEIGHT : Int)) := by
  have hw : ((CHUNK_WIDTH : Nat) : Int) = 16 := by norm_num [CHUNK_WIDTH]
  have hh : ((CHUNK_HEIGHT : Nat) : Int) = 16 := by norm_num [CHUNK_HEIGHT]
  simp only [World.chunkToBlockPos, World.blockToChunkPos, World.globalToLocalPos,
    hw, hh]
  have hxr := ediv_mul_sixteen_range hx1 hx2
  have hyr := ediv_mul_sixteen_range hy1 hy2
  rw [wrap32_eq_self hxr.1 hxr.2, wrap32_eq_self hyr.1 hyr.2]
  refine ⟨⟨?_, ?_⟩, ?_, ?_, ?_, ?_⟩
  · have := Int.ediv_add_emod p.x 16
    linarith
  · have := Int.ediv_add_emod p.y 16
    linarith
  · exact Int.emod_nonneg p.x (by norm_num)
  · exact Int.emod_lt_of_pos p.x (by norm_num)
  · exact Int.emod_nonneg p.y (by norm_num)
  · exact Int.emod_lt_of_pos p.y (by norm_num)

/-- C9 witness at the concrete position (-17, 33, 5). -/
theorem c9_witness :
    (I32_MIN ≤ (-17 : Int) ∧ (-17 : Int) < I32_MAX_EXCL ∧
      I32_MIN ≤ (33 : Int) ∧ (33 : Int) < I32_MAX_EXCL) ∧
    (((World.chunkToBlockPos (World.blockToChunkPos ⟨-17, 33, 5⟩)).x +
        (World.globalToLocalPos ⟨-17, 33, 5⟩).x = (-17 : Int) ∧
      (World.chunkToBlockPos (World.blockToChunkPos ⟨-17, 33, 5⟩)).y +
        (World.globalToLocalPos ⟨-17, 33, 5⟩).y = (33 : Int)) ∧
      (0 ≤ (World.globalToLocalPos ⟨-17, 33, 5⟩).x ∧
        (World.globalToLocalPos ⟨-17, 33, 5⟩).x < (CHUNK_WIDTH : Int) ∧
        0 ≤ (World.globalToLocalPos ⟨-17, 33, 5⟩).y ∧
        (World.globalToLocalPos ⟨-17, 33, 5⟩).y < (CHUNK_HEIGHT : Int))) :=
  ⟨⟨by decide, by decide, by decide, by decide⟩,
    c9_coordinate_inverse ⟨-17, 33, 5⟩ (by decide) (by decide) (by decide) (by decide)⟩

/-- A vertical coordinate outside `[0, CHUNK_DEPTH)` (within the `i32`
range) maps to a subchunk index outside the subchunk array. -/
theorem subchunkIndex_ge (z : Int) (hlo : I32_MIN ≤ z) (hhi : z < I32_MAX_EXCL)
    (hout : z < 0 ∨ (CHUNK_DEPTH : Int) ≤ z) :
    NUM_SUBCHUNKS ≤ Chunk.subchunkIndex z := by
  unfold Chunk.subchunkIndex
  unfold I32_MIN at hlo
  unfold I32_MAX_EXCL at hhi
  have hd : ((CHUNK_DEPTH : Nat) : Int) = 256 := by
    norm_num [CHUNK_DEPTH, SUBCHUNK_DEPTH, NUM_SUBCHUNKS]
  have hm : ((U64_MOD : Nat) : Int) = 2 ^ 64 := by norm_num [U64_MOD]
  rw [hd] at hout
  have h256 : (256 : Int) ≤ z % ((U64_MOD : Nat) : Int) := by
    rw [hm]
    have hm64 : (2 : Int) ^ 64 = 18446744073709551616 := by norm_num
    have h31 : (2 : Int) ^ 31 = 2147483648 := by norm_num
    rw [hm64]
    rw [h31] at hlo hhi
    rcases hout with h | h
    · omega
    · omega
  have hnat : 256 ≤ (z % ((U64_MOD : Nat) : Int)).toNat := by
    have := Int.toNat_le_toNat h256
    simpa using this
  show NUM_SUBCHUNKS ≤ (z % ((U64_MOD : Nat) : Int)).toNat / SUBCHUNK_DEPTH
  rw [Nat.le_div_iff_mul_le (by norm_num [SUBCHUNK_DEPTH])]
  show NUM_SUBCHUNKS * SUBCHUNK_DEPTH ≤ _
  calc NUM_SUBCHUNKS * SUBCHUNK_DEPTH = 256 := by norm_num [NUM_SUBCHUNKS, SUBCHUNK_DEPTH]
    _ ≤ _ := hnat

/-- C3: for every local position whose vertical component lies outside
`[0, chunk_depth)` (within the `i32` value range of the coordinate type),
both the field get and the field set on a Chunk return a bounds error and
leave the chunk unchanged: no panic, no clamping. -/
theorem c3_vertical_bounds (c : Chunk) (f : SectionField) (pos : BlockPosition)
    (v : Nat) (hlo : I32_MIN ≤ pos.z) (hhi : pos.z < I32_MAX_EXCL)
    (hout : pos.z < 0 ∨ (CHUNK_DEPTH : Int) ≤ pos.z) :
    Chunk.item c f pos = Except.error (BoundsError.outOfBounds pos) ∧
    Chunk.setItem c f pos v = (Except.error (BoundsError.outOfBounds pos), c) := by
  have hge := subchunkIndex_ge pos.z hlo hhi hout
  have hidx : ¬ (Chunk.subchunkIndex pos.z < NUM_SUBCHUNKS) := by omega
  constructor
  · unfold Chunk.item Chunk.subchunkGet
    rw [dif_neg hidx]
  · unfold Chunk.setItem
    rw [dif_neg hidx]

/-- C3 witness at the concrete out-of-range vertical coordinate -1. -/
theorem c3_witness :
    (I32_MIN ≤ (-1 : Int) ∧ (-1 : Int) < I32_MAX_EXCL ∧
      ((-1 : Int) < 0 ∨ (CHUNK_DEPTH : Int) ≤ (-1 : Int))) ∧
    (Chunk.item Chunk.default SectionField.block ⟨0, 0, -1⟩ =
        Except.error (BoundsError.outOfBounds ⟨0, 0, -1⟩) ∧
      Chunk.setItem Chunk.default SectionField.block ⟨0, 0, -1⟩ 7 =
        (Except.error (BoundsError.outOfBounds ⟨0, 0, -1⟩), Chunk.default)) :=
  ⟨⟨by decide, by decide, Or.inl (by decide)⟩,
    c3_vertical_bounds Chunk.default SectionField.block ⟨0, 0, -1⟩ 7
      (by decide) (by decide) (Or.inl (by decide))⟩

/-- Membership after one dirty-set insertion. -/
theorem mem_dirtyInsert (l : List ChunkPosition) (p a : ChunkPosition) :
    a ∈ dirtyInsert l p ↔ a = p ∨ a ∈ l := by
  unfold dirtyInsert
  by_cases h : p ∈ l
  · rw [if_pos h]
    constructor
    · exact Or.inr
    · rintro (rfl | ha)
      · exact h
      · exact ha
  · rw [if_neg h]
    exact List.mem_cons

/-- Dirty-set insertion keeps the list duplicate-free. -/
theorem nodup_dirtyInsert (l : List ChunkPosition) (p : ChunkPosition)
    (h : l.Nodup) : (dirtyInsert l p).Nodup := by
  unfold dirtyInsert
  by_cases hp : p ∈ l
  · rwa [if_pos hp]
  · rw [if_neg hp]
    exact List.nodup_cons.mpr ⟨hp, h⟩

/-- Membership in the dirty set after marking a set: the old members, the
owning coordinate, and exactly its 4 horizontal neighbors. -/
theorem mem_markDirty (l : List ChunkPosition) (pos a : ChunkPosition) :
    a ∈ markDirty l pos ↔ a ∈ l ∨ a = pos ∨ a ∈ chunkOffsets pos := by
  simp only [markDirty, chunkOffsets, CHUNK_ADJ_OFFSETS, List.map_cons, List.map_nil,
    List.foldl_cons, List.foldl_nil, mem_dirtyInsert, List.mem_cons,
    List.not_mem_nil, or_false]
  tauto

/-- Marking keeps the dirty set duplicate-free. -/
theorem nodup_markDirty (l : List ChunkPosition) (pos : ChunkPosition)
    (h : l.Nodup) : (markDirty l pos).Nodup := by
  simp only [markDirty, chunkOffsets, CHUNK_ADJ_OFFSETS, List.map_cons, List.map_nil,
    List.foldl_cons, List.foldl_nil]
  exact nodup_dirtyInsert _ _ (nodup_dirtyInsert _ _ (nodup_dirtyInsert _ _
    (nodup_dirtyInsert _ _ (nodup_dirtyInsert _ _ h))))

/-- Occurrence count in a filtered duplicate-free list: one for members
passing the filter, zero otherwise. -/
theorem count_filter_nodup (l : List ChunkPosition) (hnd : l.Nodup)
    (p : ChunkPosition → Bool) (a : ChunkPosition) :
    (l.filter p).count a = if a ∈ l ∧ p a = true then 1 else 0 := by
  induction l with
  | nil => simp
  | cons b t ih =>
    rw [List.nodup_cons] at hnd
    rcases hnd with ⟨hb, ht⟩
    by_cases hpb : p b = true
    · rw [List.filter_cons_of_pos hpb]
      by_cases hab : a = b
      · subst hab
        rw [List.count_cons_self, ih ht]
        simp [hb, hpb]
      · rw [List.count_cons_of_ne hab, ih ht]
        simp [List.mem_cons, hab]
    · rw [List.filter_cons_of_neg (by simpa using hpb), ih ht]
      by_cases hab : a = b
      · subst hab
        simp [hpb]
      · simp [List.mem_cons, hab]

/-- C1: a successful field set at a global position marks the owning chunk
coordinate and exactly its 4 horizontal neighbors dirty (on top of the
already marked coordinates, with no loadedness requirement on the
neighbors), and `consume_dirty()` returns each marked, still-loaded
coordinate exactly once and leaves the dirty set empty. -/
theorem c1_dirty_marking (w : DirtyWorld) (f : SectionField)
    (pos : BlockPosition) (v : Nat) (w2 : DirtyWorld)
    (hset : DirtyWorld.setItem w f pos v = (Except.ok (), w2))
    (hnd : w.dirty.Nodup) :
    (∀ a : ChunkPosition, a ∈ w2.dirty ↔
        a ∈ w.dirty ∨ a = World.blockToChunkPos pos ∨
          a ∈ chunkOffsets (World.blockToChunkPos pos)) ∧
    (∀ a : ChunkPosition, (DirtyWorld.consumeDirty w2).1.count a =
        if a ∈ w2.dirty ∧ (w2.chunks a).isSome = true then 1 else 0) ∧
    (DirtyWorld.consumeDirty w2).2.dirty = [] := by
  unfold DirtyWorld.setItem at hset
  have hdirty : w2.dirty = markDirty w.dirty (World.blockToChunkPos pos) := by
    split at hset
    · exact absurd (congrArg Prod.fst hset) (by simp)
    · split at hset
      · exact absurd (congrArg Prod.fst hset) (by simp)
      · have h2 := congrArg Prod.snd hset
        simp only at h2
        rw [← h2]
  refine ⟨?_, ?_, rfl⟩
  · intro a
    rw [hdirty]
    exact mem_markDirty _ _ _
  · intro a
    have hnd2 : w2.dirty.Nodup := by
      rw [hdirty]
      exact nodup_markDirty _ _ hnd
    exact count_filter_nodup _ hnd2 _ a

/-- C1 witness: the concrete set at (0, 0, 0) in a world holding one chunk
at (0, 0), evaluated through the embedded setter. -/
theorem c1_witness :
    (DirtyWorld.setItem dw0 SectionField.block ⟨0, 0, 0⟩ 1 = (Except.ok (), dw1) ∧
      dw0.dirty.Nodup) ∧
    ((∀ a : ChunkPosition, a ∈ dw1.dirty ↔
        a ∈ dw0.dirty ∨ a = World.blockToChunkPos ⟨0, 0, 0⟩ ∨
          a ∈ chunkOffsets (World.blockToChunkPos ⟨0, 0, 0⟩)) ∧
      (∀ a : ChunkPosition, (DirtyWorld.consumeDirty dw1).1.count a =
          if a ∈ dw1.dirty ∧ (dw1.chunks a).isSome = true then 1 else 0) ∧
      (DirtyWorld.consumeDirty dw1).2.dirty = []) :=
  ⟨⟨rfl, by simp [dw0]⟩,
    c1_dirty_marking dw0 SectionField.block ⟨0, 0, 0⟩ 1 dw1 rfl (by simp [dw0])⟩

/-- C2: for every world state (hence for every chunk built by an arbitrary
sequence of field writes), unloading a loaded chunk and then loading it back
at the same coordinate succeeds (in an environment where the external calls
succeed) and reproduces the same result for every field get at every
position of that chunk as before the unload. -/
theorem c2_roundtrip (env : IOEnv) (w : World) (fs : FileStore)
    (cpos : ChunkPosition) (c : Chunk)
    (hc : w.chunks cpos = some c)
    (hdir : env.createDirOk = true) (hfile : env.createFileOk = true)
    (henc : env.encodeOk = true) (hwrite : env.writeOk = true) :
    (World.unloadChunk env w fs cpos).1 = Except.ok () ∧
    (World.loadChunk (World.unloadChunk env w fs cpos).2.1
      (World.unloadChunk env w fs cpos).2.2 cpos).1 = Except.ok () ∧
    ∀ (f : SectionField) (pos : BlockPosition),
      World.blockToChunkPos pos = cpos →
      World.item (World.loadChunk (World.unloadChunk env w fs cpos).2.1
        (World.unloadChunk env w fs cpos).2.2 cpos).2 f pos = World.item w f pos := by
  have hu : World.unloadChunk env w fs cpos =
      (Except.ok (), { chunks := Function.update w.chunks cpos none },
        Function.update fs cpos (some (FileContent.chunkData c))) := by
    unfold World.unloadChunk
    rw [hc]
    simp [hdir, hfile, henc, hwrite]
  rw [hu]
  have hl : World.loadChunk { chunks := Function.update w.chunks cpos none }
      (Function.update fs cpos (some (FileContent.chunkData c))) cpos =
      (Except.ok (),
        { chunks :=
            Function.update (Function.update w.chunks cpos none) cpos (some c) }) := by
    unfold World.loadChunk
    simp [Function.update_same]
  rw [hl]
  refine ⟨rfl, rfl, ?_⟩
  intro f pos hpos
  show World.item
      { chunks := Function.update (Function.update w.chunks cpos none) cpos (some c) }
      f pos = World.item w f pos
  unfold World.item
  rw [hpos]
  have hup : Function.update (Function.update w.chunks cpos none) cpos (some c) cpos
      = some c := Function.update_same _ _ _
  simp only [hup, hc]

/-- C2 witness: the concrete round trip of the single chunk at (0, 0). -/
theorem c2_witness :
    (w0.chunks chunkPos00 = some Chunk.default ∧
      envAllOk.createDirOk = true ∧ envAllOk.createFileOk = true ∧
      envAllOk.encodeOk = true ∧ envAllOk.writeOk = true) ∧
    ((World.unloadChunk envAllOk w0 fs0 chunkPos00).1 = Except.ok () ∧
      (World.loadChunk (World.unloadChunk envAllOk w0 fs0 chunkPos00).2.1
        (World.unloadChunk envAllOk w0 fs0 chunkPos00).2.2 chunkPos00).1 = Except.ok () ∧
      ∀ (f : SectionField) (pos : BlockPosition),
        World.blockToChunkPos pos = chunkPos00 →
        World.item (World.loadChunk (World.unloadChunk envAllOk w0 fs0 chunkPos00).2.1
          (World.unloadChunk envAllOk w0 fs0 chunkPos00).2.2 chunkPos00).2 f pos =
          World.item w0 f pos) :=
  ⟨⟨rfl, rfl, rfl, rfl, rfl⟩,
    c2_roundtrip envAllOk w0 fs0 chunkPos00 Chunk.default rfl rfl rfl rfl rfl⟩

/-- Subchunk emptiness characterization: every field slot is absent. -/
theorem subchunk_isEmpty_iff (s : Subchunk) :
    Subchunk.isEmpty s = true ↔ ∀ f, s.sections f = none := by
  simp only [Subchunk.isEmpty, SectionField.fields, List.all_cons, List.all_nil,
    Bool.and_eq_true, Option.isNone_iff_eq_none, Bool.and_true]
  constructor
  · rintro ⟨h1, h2, h3⟩ f
    cases f
    · exact h1
    · exact h2
    · exact h3
  · intro h
    exact ⟨h _, h _, h _⟩

/-- Section emptiness characterization over the fixed volume. -/
theorem section_isEmpty_iff (s : Section) :
    Section.isEmpty s = true ↔
      ∀ a b c : Nat, a < CHUNK_WIDTH → b < CHUNK_HEIGHT → c < SUBCHUNK_DEPTH →
        s.data (a : Int) (b : Int) (c : Int) = 0 := by
  unfold Section.isEmpty
  simp only [List.all_eq_true, List.mem_range, beq_iff_eq]
  constructor
  · intro h a b c ha hb hc
    exact h c hc b hb a ha
  · intro h c hc b hb a ha
    exact h a b c ha hb hc

/-- A section holding a nonzero value at an in-bounds position is not
empty. -/
theorem section_isEmpty_eq_false (s : Section) (a b c : Int)
    (ha0 : 0 ≤ a) (ha : a < 16) (hb0 : 0 ≤ b) (hb : b < 16)
    (hc0 : 0 ≤ c) (hc : c < 16) (hne : s.data a b c ≠ 0) :
    Section.isEmpty s = false := by
  rw [Bool.eq_false_iff]
  intro h
  rw [section_isEmpty_iff] at h
  apply hne
  have h2 := h a.toNat b.toNat c.toNat
    (by unfold CHUNK_WIDTH; omega) (by unfold CHUNK_HEIGHT; omega)
    (by unfold SUBCHUNK_DEPTH; omega)
  rwa [Int.toNat_of_nonneg ha0, Int.toNat_of_nonneg hb0, Int.toNat_of_nonneg hc0] at h2

/-- The components of a sub-local position produced by the coordinate chain
are always inside the section volume. -/
theorem inBounds_localToSub (pos : BlockPosition) :
    Section.inBounds (Chunk.localToSub (World.globalToLocalPos pos)) = true := by
  simp only [Section.inBounds, Chunk.localToSub, World.globalToLocalPos,
    Bool.and_eq_true, decide_eq_true_eq]
  have hw : ((CHUNK_WIDTH : Nat) : Int) = 16 := by norm_num [CHUNK_WIDTH]
  have hh : ((CHUNK_HEIGHT : Nat) : Int) = 16 := by norm_num [CHUNK_HEIGHT]
  have hd : ((SUBCHUNK_DEPTH : Nat) : Int) = 16 := by norm_num [SUBCHUNK_DEPTH]
  rw [hw, hh, hd]
  refine ⟨⟨⟨⟨⟨?_, ?_⟩, ?_⟩, ?_⟩, ?_⟩, ?_⟩
  · exact Int.emod_nonneg _ (by norm_num)
  · exact Int.emod_lt_of_pos _ (by norm_num)
  · exact Int.emod_nonneg _ (by norm_num)
  · exact Int.emod_lt_of_pos _ (by norm_num)
  · exact Int.emod_nonneg _ (by norm_num)
  · exact Int.emod_lt_of_pos _ (by norm_num)

/-- Unfolding of the checked subchunk array access. -/
theorem subchunkGet_eq (c : Chunk) (i : Nat) (x : Option Subchunk) :
    Chunk.subchunkGet c i = some x ↔
      ∃ h : i < NUM_SUBCHUNKS, c.subchunks ⟨i, h⟩ = x := by
  unfold Chunk.subchunkGet
  split
  · rename_i h
    constructor
    · intro he
      exact ⟨h, Option.some.inj he⟩
    · rintro ⟨h2, he⟩
      rw [← he]
  · rename_i h
    constructor
    · intro he
      exact absurd he (by simp)
    · rintro ⟨h2, _⟩
      exact absurd h2 h

/-- A vertical coordinate inside `[0, CHUNK_DEPTH)` maps to a subchunk index
inside the subchunk array. -/
theorem subchunkIndex_lt (z : Int) (h0 : 0 ≤ z) (h1 : z < (CHUNK_DEPTH : Int)) :
    Chunk.subchunkIndex z < NUM_SUBCHUNKS := by
  unfold Chunk.subchunkIndex
  have hd : ((CHUNK_DEPTH : Nat) : Int) = 256 := by
    norm_num [CHUNK_DEPTH, SUBCHUNK_DEPTH, NUM_SUBCHUNKS]
  rw [hd] at h1
  have hmod : z % ((U64_MOD : Nat) : Int) = z := by
    have hm : ((U64_MOD : Nat) : Int) = 18446744073709551616 := by norm_num [U64_MOD]
    rw [hm]
    exact Int.emod_eq_of_lt h0 (by omega)
  rw [hmod]
  show z.toNat / SUBCHUNK_DEPTH < NUM_SUBCHUNKS
  have : z.toNat < 256 := by omega
  unfold SUBCHUNK_DEPTH NUM_SUBCHUNKS
  omega

/-- Repeated pointwise update at the same key collapses to the last one. -/
theorem update_update {α β : Type} [DecidableEq α] (f : α → β) (a : α) (b1 b2 : β) :
    Function.update (Function.update f a b1) a b2 = Function.update f a b2 := by
  funext x
  by_cases hx : x = a
  · subst hx
    rw [Function.update_same, Function.update_same]
  · rw [Function.update_noteq hx, Function.update_noteq hx, Function.update_noteq hx]

/-- Updating a key with the value it already holds is the identity. -/
theorem update_self_of_eq {α β : Type} [DecidableEq α] (f : α → β) (a : α) (b : β)
    (h : f a = b) : Function.update f a b = f := by
  funext x
  by_cases hx : x = a
  · subst hx
    rw [Function.update_same, h]
  · rw [Function.update_noteq hx]

/-- Successful section write: the stored data is the pointwise update. -/
theorem section_setItem_ok (s : Section) (pos : BlockPosition) (v : Nat)
    (hin : Section.inBounds pos = true) :
    ∃ s2, Section.setItem s pos v = Except.ok s2 ∧ s2.bits = s.bits ∧
      ∀ a b c : Int, s2.data a b c =
        if a = pos.x ∧ b = pos.y ∧ c = pos.z then v else s.data a b c := by
  unfold Section.setItem
  rw [if_pos hin]
  exact ⟨_, rfl, rfl, fun a b c => rfl⟩

/-- C4 step lemma: a default write into an absent subchunk slot is a no-op
on the chunk. -/
theorem chunk_set_zero_absent (c : Chunk) (f : SectionField) (pos : BlockPosition)
    (hidx : Chunk.subchunkIndex pos.z < NUM_SUBCHUNKS)
    (hsub : c.subchunks ⟨Chunk.subchunkIndex pos.z, hidx⟩ = none) :
    Chunk.setItem c f pos 0 = (Except.ok (), c) := by
  unfold Chunk.setItem
  rw [dif_pos hidx, hsub]
  rfl

/-- C4 step lemma: a nonzero write into an absent subchunk slot followed by
a default write at the same position restores the chunk exactly, collapsing
the affected section and subchunk back to absent. -/
theorem chunk_set_restore (c : Chunk) (f : SectionField) (pos : BlockPosition) (v : Nat)
    (hidx : Chunk.subchunkIndex pos.z < NUM_SUBCHUNKS)
    (hsub : c.subchunks ⟨Chunk.subchunkIndex pos.z, hidx⟩ = none)
    (hv : v ≠ 0)
    (hin : Section.inBounds (Chunk.localToSub pos) = true) :
    ∃ c1, Chunk.setItem c f pos v = (Except.ok (), c1) ∧
      Chunk.setItem c1 f pos 0 = (Except.ok (), c) := by
  have hbounds := hin
  simp only [Section.inBounds, Bool.and_eq_true, decide_eq_true_eq] at hbounds
  have hw : ((CHUNK_WIDTH : Nat) : Int) = 16 := by norm_num [CHUNK_WIDTH]
  have hh : ((CHUNK_HEIGHT : Nat) : Int) = 16 := by norm_num [CHUNK_HEIGHT]
  have hd : ((SUBCHUNK_DEPTH : Nat) : Int) = 16 := by norm_num [SUBCHUNK_DEPTH]
  rw [hw, hh, hd] at hbounds
  obtain ⟨⟨⟨⟨⟨hx0, hx1⟩, hy0⟩, hy1⟩, hz0⟩, hz1⟩ := hbounds
  obtain ⟨sec1, he1, _, hdata1⟩ :=
    section_setItem_ok (Section.new (SectionField.bits f)) (Chunk.localToSub pos) v hin
  have hsec1at : sec1.data (Chunk.localToSub pos).x (Chunk.localToSub pos).y
      (Chunk.localToSub pos).z = v := by
    rw [hdata1]
    simp
  have hsec1ne : Section.isEmpty sec1 = false :=
    section_isEmpty_eq_false sec1 _ _ _ hx0 hx1 hy0 hy1 hz0 hz1
      (by rw [hsec1at]; exact hv)
  have e2 : Subchunk.setItem Subchunk.default f (Chunk.localToSub pos) v =
      (Except.ok (),
        { sections := Function.update Subchunk.default.sections f (some sec1) }) := by
    unfold Subchunk.setItem
    rw [if_neg (by simp [hv])]
    simp only [Subchunk.default, Option.getD_none]
    simp only [he1]
    rw [if_neg (by simp [hsec1ne])]
  have hsub1ne : ¬ Subchunk.isEmpty
      { sections := Function.update Subchunk.default.sections f (some sec1) } = true := by
    intro hemp
    have h2 := (subchunk_isEmpty_iff _).mp hemp f
    simp [Function.update_same] at h2
  refine ⟨{ subchunks := (Function.update c.subchunks ⟨Chunk.subchunkIndex pos.z, hidx⟩ (some { sections := Function.update Subchunk.default.sections f (some sec1) })) }, ?_, ?_⟩
  · unfold Chunk.setItem
    rw [dif_pos hidx, hsub]
    rw [if_neg (by simp [hv])]
    simp only [Option.getD_none]
    simp only [e2]
    rw [if_neg hsub1ne]
  · unfold Chunk.setItem
    rw [dif_pos hidx]
    simp only [Function.update_same]
    rw [if_neg (by simp)]
    simp only [Option.getD_some]
    obtain ⟨sec2, he2, _, hdata2⟩ := section_setItem_ok sec1 (Chunk.localToSub pos) 0 hin
    have hsec2emp : Section.isEmpty sec2 = true := by
      rw [section_isEmpty_iff]
      intro a b c _ _ _
      rw [hdata2]
      by_cases h : (a : Int) = (Chunk.localToSub pos).x ∧
          (b : Int) = (Chunk.localToSub pos).y ∧ (c : Int) = (Chunk.localToSub pos).z
      · rw [if_pos h]
      · rw [if_neg h, hdata1, if_neg h]
        rfl
    have e4 : Subchunk.setItem
        { sections := Function.update Subchunk.default.sections f (some sec1) }
        f (Chunk.localToSub pos) 0 =
        (Except.ok (),
          { sections := Function.update
              (Function.update Subchunk.default.sections f (some sec1)) f none }) := by
      unfold Subchunk.setItem
      rw [if_neg (by simp [Function.update_same])]
      simp only [Function.update_same, Option.getD_some]
      simp only [he2]
      rw [if_pos hsec2emp]
    simp only [e4]
    have hsub2emp : Subchunk.isEmpty
        { sections := Function.update
            (Function.update Subchunk.default.sections f (some sec1)) f none } = true := by
      rw [subchunk_isEmpty_iff]
      intro g
      by_cases hg : g = f
      · subst hg
        simp [Function.update_same]
      · simp [Function.update_noteq hg, Subchunk.default]
    rw [if_pos hsub2emp]
    rw [update_update]
    rw [update_self_of_eq c.subchunks _ none hsub]

/-- C4: writing a field default (zero) at a position whose subchunk/section
chain is absent leaves the world state exactly unchanged (nothing is
allocated), and writing a nonzero value there and then overwriting it back
to the default restores the world state exactly: the affected section and
subchunk are empty again and their slots absent. -/
theorem c4_sparse_reclaim (w : World) (f : SectionField) (pos : BlockPosition)
    (v : Nat) (c : Chunk)
    (hc : w.chunks (World.blockToChunkPos pos) = some c)
    (hslot : Chunk.subchunkGet c (Chunk.subchunkIndex pos.z) = some none)
    (hv : v ≠ 0) :
    World.setItem w f pos 0 = (Except.ok (), w) ∧
    ∃ w1, World.setItem w f pos v = (Except.ok (), w1) ∧
      World.setItem w1 f pos 0 = (Except.ok (), w) := by
  obtain ⟨hidx, hsub⟩ := (subchunkGet_eq c _ none).mp hslot
  have hidx2 : Chunk.subchunkIndex (World.globalToLocalPos pos).z < NUM_SUBCHUNKS := hidx
  have hsub2 : c.subchunks ⟨Chunk.subchunkIndex (World.globalToLocalPos pos).z, hidx2⟩ =
      none := hsub
  have hin : Section.inBounds (Chunk.localToSub (World.globalToLocalPos pos)) = true :=
    inBounds_localToSub pos
  constructor
  · simp only [World.setItem, hc]
    rw [chunk_set_zero_absent c f (World.globalToLocalPos pos) hidx2 hsub2]
    show (Except.ok (),
        ({ chunks := Function.update w.chunks (World.blockToChunkPos pos) (some c) } : World)) =
      (Except.ok (), w)
    rw [update_self_of_eq w.chunks _ (some c) hc]
  · obtain ⟨c1, h1, h2⟩ :=
      chunk_set_restore c f (World.globalToLocalPos pos) v hidx2 hsub2 hv hin
    refine ⟨{ chunks := Function.update w.chunks (World.blockToChunkPos pos) (some c1) },
      ?_, ?_⟩
    · simp only [World.setItem, hc]
      rw [h1]
    · simp only [World.setItem, Function.update_same]
      rw [h2]
      show (Except.ok (),
          ({ chunks := Function.update (Function.update w.chunks (World.blockToChunkPos pos)
              (some c1)) (World.blockToChunkPos pos) (some c) } : World)) =
        (Except.ok (), w)
      rw [update_update, update_self_of_eq w.chunks _ (some c) hc]

/-- C4 witness: the concrete write of 3 into the block field at (1, 2, 3)
of the default chunk at (0, 0), then back to 0. -/
theorem c4_witness :
    (w0.chunks (World.blockToChunkPos ⟨1, 2, 3⟩) = some Chunk.default ∧
      Chunk.subchunkGet Chunk.default (Chunk.subchunkIndex (3 : Int)) = some none ∧
      (3 : Nat) ≠ 0) ∧
    (World.setItem w0 SectionField.block ⟨1, 2, 3⟩ 0 = (Except.ok (), w0) ∧
      ∃ w1, World.setItem w0 SectionField.block ⟨1, 2, 3⟩ 3 = (Except.ok (), w1) ∧
        World.setItem w1 SectionField.block ⟨1, 2, 3⟩ 0 = (Except.ok (), w0)) :=
  ⟨⟨rfl, rfl, by decide⟩,
    c4_sparse_reclaim w0 SectionField.block ⟨1, 2, 3⟩ 3 Chunk.default rfl rfl (by decide)⟩

/-- An empty section stores zero at every in-bounds position. -/
theorem section_data_eq_zero (s : Section) (hemp : Section.isEmpty s = true)
    (a b c : Int) (ha0 : 0 ≤ a) (ha : a < 16) (hb0 : 0 ≤ b) (hb : b < 16)
    (hc0 : 0 ≤ c) (hc : c < 16) : s.data a b c = 0 := by
  rw [section_isEmpty_iff] at hemp
  have h2 := hemp a.toNat b.toNat c.toNat
    (by unfold CHUNK_WIDTH; omega) (by unfold CHUNK_HEIGHT; omega)
    (by unfold SUBCHUNK_DEPTH; omega)
  rwa [Int.toNat_of_nonneg ha0, Int.toNat_of_nonneg hb0, Int.toNat_of_nonneg hc0] at h2

/-- Unpacking of the in-bounds check into its component inequalities. -/
theorem inBounds_unpack (pos : BlockPosition) (hin : Section.inBounds pos = true) :
    (0 ≤ pos.x ∧ pos.x < 16) ∧ (0 ≤ pos.y ∧ pos.y < 16) ∧ 0 ≤ pos.z ∧ pos.z < 16 := by
  simp only [Section.inBounds, Bool.and_eq_true, decide_eq_true_eq] at hin
  have hw : ((CHUNK_WIDTH : Nat) : Int) = 16 := by norm_num [CHUNK_WIDTH]
  have hh : ((CHUNK_HEIGHT : Nat) : Int) = 16 := by norm_num [CHUNK_HEIGHT]
  have hd : ((SUBCHUNK_DEPTH : Nat) : Int) = 16 := by norm_num [SUBCHUNK_DEPTH]
  rw [hw, hh, hd] at hin
  obtain ⟨⟨⟨⟨⟨hx0, hx1⟩, hy0⟩, hy1⟩, hz0⟩, hz1⟩ := hin
  exact ⟨⟨hx0, hx1⟩, ⟨hy0, hy1⟩, hz0, hz1⟩

/-- Set followed by get on a Subchunk returns the written raw value. -/
theorem subchunk_setItem_get (s : Subchunk) (f : SectionField) (pos : BlockPosition)
    (v : Nat) (hin : Section.inBounds pos = true) :
    ∃ s2, Subchunk.setItem s f pos v = (Except.ok (), s2) ∧
      Subchunk.item s2 f pos = Except.ok v := by
  obtain ⟨⟨hx0, hx1⟩, ⟨hy0, hy1⟩, hz0, hz1⟩ := inBounds_unpack pos hin
  unfold Subchunk.setItem
  by_cases hcond : (v == 0 && (s.sections f).isNone) = true
  · rw [if_pos hcond]
    rw [Bool.and_eq_true] at hcond
    have hv0 : v = 0 := by simpa using hcond.1
    have hnone : s.sections f = none := by simpa using hcond.2
    refine ⟨s, rfl, ?_⟩
    unfold Subchunk.item
    rw [hnone, hv0]
  · rw [if_neg hcond]
    obtain ⟨sec2, he, _, hdata⟩ :=
      section_setItem_ok ((s.sections f).getD (Section.new (SectionField.bits f))) pos v hin
    simp only [he]
    have hval : sec2.data pos.x pos.y pos.z = v := by
      rw [hdata]
      simp
    by_cases hemp : Section.isEmpty sec2 = true
    · rw [if_pos hemp]
      have hv0 : v = 0 := by
        rw [← hval]
        exact section_data_eq_zero sec2 hemp _ _ _ hx0 hx1 hy0 hy1 hz0 hz1
      refine ⟨_, rfl, ?_⟩
      unfold Subchunk.item
      simp only [Function.update_same]
      rw [hv0]
    · rw [if_neg hemp]
      refine ⟨_, rfl, ?_⟩
      unfold Subchunk.item
      simp only [Function.update_same]
      unfold Section.item
      rw [if_pos hin, hval]

/-- Set followed by get on a Chunk returns the written raw value. -/
theorem chunk_setItem_get (c : Chunk) (f : SectionField) (pos : BlockPosition) (v : Nat)
    (hidx : Chunk.subchunkIndex pos.z < NUM_SUBCHUNKS)
    (hin : Section.inBounds (Chunk.localToSub pos) = true) :
    ∃ c2, Chunk.setItem c f pos v = (Except.ok (), c2) ∧
      Chunk.item c2 f pos = Except.ok v := by
  unfold Chunk.setItem
  rw [dif_pos hidx]
  by_cases hcond :
      (v == 0 && (c.subchunks ⟨Chunk.subchunkIndex pos.z, hidx⟩).isNone) = true
  · rw [if_pos hcond]
    rw [Bool.and_eq_true] at hcond
    have hv0 : v = 0 := by simpa using hcond.1
    have hnone : c.subchunks ⟨Chunk.subchunkIndex pos.z, hidx⟩ = none := by
      simpa using hcond.2
    refine ⟨c, rfl, ?_⟩
    unfold Chunk.item Chunk.subchunkGet
    rw [dif_pos hidx]
    simp only [hnone]
    rw [hv0]
  · rw [if_neg hcond]
    obtain ⟨s2, hs, hget⟩ := subchunk_setItem_get
      ((c.subchunks ⟨Chunk.subchunkIndex pos.z, hidx⟩).getD Subchunk.default) f
      (Chunk.localToSub pos) v hin
    simp only [hs]
    by_cases hemp : Subchunk.isEmpty s2 = true
    · rw [if_pos hemp]
      have hnone2 : s2.sections f = none := (subchunk_isEmpty_iff s2).mp hemp f
      have hv0 : v = 0 := by
        unfold Subchunk.item at hget
        rw [hnone2] at hget
        exact (Except.ok.inj hget).symm
      refine ⟨_, rfl, ?_⟩
      unfold Chunk.item Chunk.subchunkGet
      rw [dif_pos hidx]
      simp only [Function.update_same]
      rw [hv0]
    · rw [if_neg hemp]
      refine ⟨_, rfl, ?_⟩
      unfold Chunk.item Chunk.subchunkGet
      rw [dif_pos hidx]
      simp only [Function.update_same]
      exact hget

/-- Set followed by get on the World returns the written raw value. -/
theorem world_setItem_get (w : World) (f : SectionField) (pos : BlockPosition)
    (v : Nat) (c : Chunk) (hc : w.chunks (World.blockToChunkPos pos) = some c)
    (hz0 : 0 ≤ pos.z) (hz1 : pos.z < (CHUNK_DEPTH : Int)) :
    ∃ w1, World.setItem w f pos v = (Except.ok (), w1) ∧
      World.item w1 f pos = Except.ok v := by
  have hidx : Chunk.subchunkIndex (World.globalToLocalPos pos).z < NUM_SUBCHUNKS :=
    subchunkIndex_lt pos.z hz0 hz1
  obtain ⟨c2, hset, hget⟩ := chunk_setItem_get c f (World.globalToLocalPos pos) v hidx
    (inBounds_localToSub pos)
  refine ⟨{ chunks := Function.update w.chunks (World.blockToChunkPos pos) (some c2) },
    ?_, ?_⟩
  · simp only [World.setItem, hc]
    rw [hset]
  · simp only [World.item, Function.update_same, hget]

/-- A get through an absent subchunk/section chain yields the raw default 0. -/
theorem chunk_item_sectionAbsent (c : Chunk) (f : SectionField) (pos : BlockPosition)
    (h : Chunk.sectionAbsent c f pos = true) :
    Chunk.item c f pos = Except.ok 0 := by
  unfold Chunk.sectionAbsent at h
  unfold Chunk.item
  cases hg : Chunk.subchunkGet c (Chunk.subchunkIndex pos.z) with
  | none =>
      simp only [hg] at h
      exact Bool.noConfusion h
  | some o =>
      cases o with
      | none => simp only [hg]
      | some s =>
          simp only [hg] at h
          simp only [hg]
          unfold Subchunk.item
          rw [Option.isNone_iff_eq_none] at h
          rw [h]

/-- C7: for the boolean exposure-flag field, setting the flag to a boolean
at an in-bounds position and then reading it back at the same position
returns that boolean (codec false to 0, true to 1, read as nonzero), and
reading a position whose section chain is absent returns false. -/
theorem c7_bool_roundtrip (w : World) (pos : BlockPosition) (b : Bool) (c : Chunk)
    (hc : w.chunks (World.blockToChunkPos pos) = some c)
    (hz0 : 0 ≤ pos.z) (hz1 : pos.z < (CHUNK_DEPTH : Int)) :
    (∃ w1, World.setIsExposed w pos b = (Except.ok (), w1) ∧
      World.isExposed w1 pos = Except.ok b) ∧
    (Chunk.sectionAbsent c SectionField.exposed (World.globalToLocalPos pos) = true →
      World.isExposed w pos = Except.ok false) := by
  constructor
  · obtain ⟨w1, hset, hget⟩ :=
      world_setItem_get w SectionField.exposed pos (boolToU64 b) c hc hz0 hz1
    refine ⟨w1, hset, ?_⟩
    unfold World.isExposed
    rw [hget]
    cases b <;> rfl
  · intro habs
    have hitem :=
      chunk_item_sectionAbsent c SectionField.exposed (World.globalToLocalPos pos) habs
    unfold World.isExposed
    simp only [World.item, hc, hitem]
    rfl

/-- C7 witness: the concrete exposure write of true at (3, 0, 2) into the
default chunk at (0, 0), and the absent-chain read at the same position. -/
theorem c7_witness :
    (w0.chunks (World.blockToChunkPos ⟨3, 0, 2⟩) = some Chunk.default ∧
      (0 : Int) ≤ 2 ∧ (2 : Int) < (CHUNK_DEPTH : Int)) ∧
    ((∃ w1, World.setIsExposed w0 ⟨3, 0, 2⟩ true = (Except.ok (), w1) ∧
        World.isExposed w1 ⟨3, 0, 2⟩ = Except.ok true) ∧
      (Chunk.sectionAbsent Chunk.default SectionField.exposed
          (World.globalToLocalPos ⟨3, 0, 2⟩) = true →
        World.isExposed w0 ⟨3, 0, 2⟩ = Except.ok false)) :=
  ⟨⟨rfl, by decide, by decide⟩,
    c7_bool_roundtrip w0 ⟨3, 0, 2⟩ true Chunk.default rfl (by decide) (by decide)⟩

end TerrainData
